/-
  Verification of the Automated-Prompt-Engineering notebook
  (src/Automated-Prompt-Engineering/AutomatedPromptEngineering.ipynb).

  The notebook's own logic is the experiment harness glue: seeding, a 10%
  deterministic downsample of the loaded dataset, a seeded shuffle, a
  60/20/20 contiguous split, and calls into an external evaluation and
  prompt-optimization framework.  The harness pieces present in the source
  are embedded directly; the framework components invoked but not defined
  in the source (dspy.Evaluate, dspy.MIPROv2.compile, random.shuffle's
  permutation algorithm, pandas.DataFrame.sample) are modelled from the
  specification's contracts, each marked `Modelled from the spec:`.
-/
import Mathlib

open List

/-- An Example of the dataset: the formatted riddle text (question plus the
comma-joined answer choices) and the expected answer letter, as built by
`dspy.Example(riddle=riddle, answer=answer)` in the notebook. -/
structure Example where
  riddle : String
  answer : String
deriving DecidableEq, Repr

/-- The fixed seed of the notebook: `SEED = 1208`. -/
def SEED : Nat := 1208

/-- Modelled from the spec: the pseudo-random number stream behind
`random.shuffle` and `DataFrame.sample`, which are library calls absent from
the source.  The spec only requires a deterministic seeded pseudo-random
permutation, so a 64-bit linear-congruential generator stands in for the
library generator. -/
def lcgNext (s : Nat) : Nat :=
  (6364136223846793005 * s + 1442695040888963407) % (2 ^ 64)

/-- Remove the element at (clamped) index `j` from the nonempty list
`x :: xs`, returning the removed element and the remaining list. -/
def pickAt (x : α) (xs : List α) (j : Nat) : α × List α :=
  match xs, j with
  | _, 0 => (x, xs)
  | [], _ + 1 => (x, [])
  | y :: ys, j + 1 =>
    let p := pickAt y ys j
    (p.1, x :: p.2)

theorem pickAt_length (x : α) (xs : List α) (j : Nat) :
    (pickAt x xs j).2.length = xs.length := by
  induction xs generalizing x j with
  | nil => cases j <;> simp [pickAt]
  | cons y ys ih =>
    cases j with
    | zero => simp [pickAt]
    | succ j => simp [pickAt, ih]

theorem pickAt_perm (x : α) (xs : List α) (j : Nat) :
    List.Perm ((pickAt x xs j).1 :: (pickAt x xs j).2) (x :: xs) := by
  induction xs generalizing x j with
  | nil => cases j <;> simp [pickAt]
  | cons y ys ih =>
    cases j with
    | zero => simp [pickAt]
    | succ j =>
      simp only [pickAt]
      calc (pickAt y ys j).1 :: x :: (pickAt y ys j).2
          ~ x :: (pickAt y ys j).1 :: (pickAt y ys j).2 := List.Perm.swap _ _ _
        _ ~ x :: y :: ys := (ih y j).cons x

/-- Modelled from the spec: `random.shuffle(dspy_dataset)` (§4.1), whose
permutation algorithm is not part of the source.  A deterministic seeded
pseudo-random permutation: at each step the generator state advances and
selects which remaining element comes next.  The fuel argument (the list
length at the call site) keeps the recursion structural. -/
def shuffleAux (fuel : Nat) (s : Nat) (l : List α) : List α :=
  match fuel, l with
  | _, [] => []
  | 0, _ => []
  | fuel + 1, x :: xs =>
    let s' := lcgNext s
    let p := pickAt x xs (s' % (xs.length + 1))
    p.1 :: shuffleAux fuel s' p.2

/-- Seeded shuffle: initialise the generator state from the seed and permute. -/
def shuffle (seed : Nat) (l : List α) : List α :=
  shuffleAux l.length (lcgNext seed) l

theorem shuffleAux_perm (fuel : Nat) (s : Nat) (l : List α)
    (h : l.length ≤ fuel) : List.Perm (shuffleAux fuel s l) l := by
  induction fuel generalizing s l with
  | zero =>
    cases l with
    | nil => simp [shuffleAux]
    | cons x xs => simp at h
  | succ fuel ih =>
    cases l with
    | nil => simp [shuffleAux]
    | cons x xs =>
      simp only [shuffleAux]
      refine ((ih _ _ ?_).cons _).trans (pickAt_perm x xs _)
      rw [pickAt_length]
      simpa using h

theorem shuffle_perm (seed : Nat) (l : List α) : List.Perm (shuffle seed l) l :=
  shuffleAux_perm _ _ l le_rfl

theorem shuffle_length (seed : Nat) (l : List α) :
    (shuffle seed l).length = l.length :=
  (shuffle_perm seed l).length_eq

/-- `train_size = int(0.6 * len(dspy_dataset))`.  Python truncates the float
product `0.6 * n`; for every dataset size below 10^7 (far beyond any dataset
here) that truncation equals `⌊3n/5⌋`, which is the embedded value. -/
def train_size (n : Nat) : Nat := 3 * n / 5

/-- `val_size = int(0.2 * len(dspy_dataset))`, embedded as `⌊n/5⌋` (the float
truncation agrees for every realistic size, as for `train_size`). -/
def val_size (n : Nat) : Nat := n / 5

/-- The contiguous 60/20/20 split of the (already shuffled) dataset:
`train = l[:train_size]`, `val = l[train_size : train_size+val_size]`,
`test = l[train_size+val_size :]`. -/
def splitList (l : List α) : List α × List α × List α :=
  let ts := train_size l.length
  let vs := val_size l.length
  (l.take ts, (l.drop ts).take vs, l.drop (ts + vs))

/-- The Dataset Partitioner: seeded shuffle followed by the contiguous
60/20/20 split, exactly the notebook's `random.shuffle` then slicing. -/
def partitionDataset (seed : Nat) (l : List α) :
    List α × List α × List α :=
  splitList (shuffle seed l)

theorem train_val_size_le (n : Nat) : train_size n + val_size n ≤ n := by
  unfold train_size val_size
  omega

theorem splitList_lengths (l : List α) :
    (splitList l).1.length = train_size l.length ∧
    (splitList l).2.1.length = val_size l.length ∧
    (splitList l).2.2.length
      = l.length - train_size l.length - val_size l.length := by
  have h := train_val_size_le l.length
  unfold splitList
  simp only [List.length_take, List.length_drop]
  unfold train_size val_size at *
  refine ⟨by omega, by omega, by omega⟩

theorem partitionDataset_lengths (seed : Nat) (l : List α) :
    (partitionDataset seed l).1.length = train_size l.length ∧
    (partitionDataset seed l).2.1.length = val_size l.length ∧
    (partitionDataset seed l).2.2.length
      = l.length - train_size l.length - val_size l.length := by
  have h := splitList_lengths (shuffle seed l)
  rw [shuffle_length] at h
  exact h

/-- C3: for every seed and dataset, the Partitioner slices the shuffled
sequence into three contiguous ranges of sizes exactly `⌊0.6n⌋ = 3n/5`,
`⌊0.2n⌋ = n/5`, and the remainder `n - 3n/5 - n/5`; for a dataset of 10
examples (in particular with seed 1208) the sizes are (6, 2, 2). -/
theorem partitionDataset_sizes (seed : Nat) (l : List α) :
    ((partitionDataset seed l).1.length = train_size l.length ∧
     (partitionDataset seed l).2.1.length = val_size l.length ∧
     (partitionDataset seed l).2.2.length
       = l.length - train_size l.length - val_size l.length) ∧
    (l.length = 10 →
      (partitionDataset seed l).1.length = 6 ∧
      (partitionDataset seed l).2.1.length = 2 ∧
      (partitionDataset seed l).2.2.length = 2) := by
  have h := partitionDataset_lengths seed l
  refine ⟨h, fun h10 => ?_⟩
  rw [h.1, h.2.1, h.2.2, h10]
  exact ⟨rfl, rfl, rfl⟩

/-- C3 witness: a concrete 10-element dataset with seed 1208 splits 6/2/2. -/
theorem partitionDataset_sizes_witness :
    ([0, 1, 2, 3, 4, 5, 6, 7, 8, 9] : List Nat).length = 10 ∧
    ((partitionDataset SEED ([0, 1, 2, 3, 4, 5, 6, 7, 8, 9] : List Nat)).1.length = 6 ∧
     (partitionDataset SEED ([0, 1, 2, 3, 4, 5, 6, 7, 8, 9] : List Nat)).2.1.length = 2 ∧
     (partitionDataset SEED ([0, 1, 2, 3, 4, 5, 6, 7, 8, 9] : List Nat)).2.2.length = 2) :=
  ⟨rfl, (partitionDataset_sizes SEED _).2 rfl⟩

theorem splitList_disjoint (l : List α) (hnd : l.Nodup) :
    (splitList l).1.Disjoint (splitList l).2.1 ∧
    (splitList l).1.Disjoint (splitList l).2.2 ∧
    (splitList l).2.1.Disjoint (splitList l).2.2 := by
  unfold splitList
  simp only
  have hTD : (l.take (train_size l.length)).Disjoint (l.drop (train_size l.length)) :=
    List.disjoint_take_drop hnd le_rfl
  have hdropnd : (l.drop (train_size l.length)).Nodup :=
    hnd.sublist (List.drop_sublist _ _)
  refine ⟨?_, ?_, ?_⟩
  · intro a ha hb
    exact hTD ha (List.take_subset _ _ hb)
  · intro a ha hb
    have hb2 : a ∈ (l.drop (train_size l.length)).drop (val_size l.length) := by
      rw [List.drop_drop]
      exact hb
    exact hTD ha (List.drop_subset _ _ hb2)
  · have h2 : ((l.drop (train_size l.length)).take (val_size l.length)).Disjoint
        ((l.drop (train_size l.length)).drop (val_size l.length)) :=
      List.disjoint_take_drop hdropnd le_rfl
    intro a ha hb
    refine h2 ha ?_
    rw [List.drop_drop]
    exact hb

/-- C2 (amended): for every seed and dataset, the three subsets' lengths sum
exactly to the dataset size; and when the dataset contains no duplicate
examples, the three subsets are pairwise disjoint (no example appears in more
than one subset). -/
theorem partitionDataset_sum_disjoint (seed : Nat) (l : List Example) :
    ((partitionDataset seed l).1.length + (partitionDataset seed l).2.1.length +
       (partitionDataset seed l).2.2.length = l.length) ∧
    (l.Nodup →
      (partitionDataset seed l).1.Disjoint (partitionDataset seed l).2.1 ∧
      (partitionDataset seed l).1.Disjoint (partitionDataset seed l).2.2 ∧
      (partitionDataset seed l).2.1.Disjoint (partitionDataset seed l).2.2) := by
  constructor
  · have h := partitionDataset_lengths seed l
    have hle := train_val_size_le l.length
    rw [h.1, h.2.1, h.2.2]
    omega
  · intro hnd
    exact splitList_disjoint (shuffle seed l) ((shuffle_perm seed l).nodup_iff.mpr hnd)

/-- C2 witness: on a concrete duplicate-free two-example dataset with seed
1208, the subsets are pairwise disjoint. -/
theorem partitionDataset_sum_disjoint_witness :
    ([Example.mk "a" "A", Example.mk "b" "B"] : List Example).Nodup ∧
    ((partitionDataset SEED [Example.mk "a" "A", Example.mk "b" "B"]).1.Disjoint
       (partitionDataset SEED [Example.mk "a" "A", Example.mk "b" "B"]).2.1 ∧
     (partitionDataset SEED [Example.mk "a" "A", Example.mk "b" "B"]).1.Disjoint
       (partitionDataset SEED [Example.mk "a" "A", Example.mk "b" "B"]).2.2 ∧
     (partitionDataset SEED [Example.mk "a" "A", Example.mk "b" "B"]).2.1.Disjoint
       (partitionDataset SEED [Example.mk "a" "A", Example.mk "b" "B"]).2.2) :=
  ⟨by decide, (partitionDataset_sum_disjoint SEED [Example.mk "a" "A", Example.mk "b" "B"]).2 (by decide)⟩

/-- C2 counterexample: with duplicates in the dataset the subsets need not be
disjoint — for the two-element dataset repeating one example, that example
lands in both the train and the test subset. -/
theorem partitionDataset_dup_overlap :
    Example.mk "r" "A" ∈ (partitionDataset SEED [Example.mk "r" "A", Example.mk "r" "A"]).1 ∧
    Example.mk "r" "A" ∈ (partitionDataset SEED [Example.mk "r" "A", Example.mk "r" "A"]).2.2 := by
  decide

/-- C4: the Partitioner is deterministic — two runs of shuffle-and-split on
the same seed and the same input ordering produce identical train, validation
and test subsets. -/
theorem partitionDataset_deterministic (seed₁ seed₂ : Nat) (l₁ l₂ : List Example)
    (hs : seed₁ = seed₂) (hl : l₁ = l₂) :
    partitionDataset seed₁ l₁ = partitionDataset seed₂ l₂ := by
  rw [hs, hl]

/-- C4 witness: two runs with seed 1208 on a concrete dataset agree. -/
theorem partitionDataset_deterministic_witness :
    SEED = 1208 ∧ partitionDataset SEED [Example.mk "a" "A", Example.mk "b" "B"]
      = partitionDataset 1208 [Example.mk "a" "A", Example.mk "b" "B"] :=
  ⟨rfl, partitionDataset_deterministic SEED 1208 _ _ rfl rfl⟩

/-- C10: the three subsets are order-preserving contiguous slices — train ++
val ++ test reconstructs the shuffled dataset exactly, and is a permutation of
the original dataset (nothing duplicated, dropped or reordered by the split). -/
theorem partitionDataset_append (seed : Nat) (l : List α) :
    (partitionDataset seed l).1 ++ (partitionDataset seed l).2.1 ++
      (partitionDataset seed l).2.2 = shuffle seed l ∧
    List.Perm ((partitionDataset seed l).1 ++ (partitionDataset seed l).2.1 ++
      (partitionDataset seed l).2.2) l := by
  have key : (partitionDataset seed l).1 ++ (partitionDataset seed l).2.1 ++
      (partitionDataset seed l).2.2 = shuffle seed l := by
    unfold partitionDataset splitList
    simp only
    rw [List.append_assoc]
    have hdd : (shuffle seed l).drop
        (train_size (shuffle seed l).length + val_size (shuffle seed l).length)
        = ((shuffle seed l).drop (train_size (shuffle seed l).length)).drop
            (val_size (shuffle seed l).length) := by
      rw [List.drop_drop, Nat.add_comm]
    rw [hdd, List.take_append_drop, List.take_append_drop]
  exact ⟨key, key ▸ shuffle_perm seed l⟩

/-- A parsed model prediction: the chain-of-thought rationale and the final
answer letter, the two output fields of the ChainOfThought-wrapped Riddle
signature. -/
structure Prediction where
  rationale : String
  predicted_label : String
deriving DecidableEq, Repr

/-- Modelled from the spec: `dspy.evaluate.metrics.answer_exact_match` — true
iff the predicted and expected labels are identical strings. -/
def answer_exact_match (expected predicted : String) : Bool :=
  expected == predicted

/-- One example's scored outcome (§4.2/§4.3): the pipeline's `answer` either
parses into a Prediction or fails (`none`, a SchemaViolation); a failed parse
is scored as an incorrect prediction, never as a fatal error. -/
def scoreOne (pipeline : Example → Option Prediction)
    (metric : String → String → Bool) (e : Example) : Bool :=
  match pipeline e with
  | none => false
  | some p => metric e.answer p.predicted_label

/-- The running correct-count of §4.3: examples are processed one at a time,
independently, each contributing 1 when the metric accepts the prediction. -/
def correctCount (pipeline : Example → Option Prediction)
    (metric : String → String → Bool) : List Example → Nat
  | [] => 0
  | e :: rest =>
    (if scoreOne pipeline metric e then 1 else 0) + correctCount pipeline metric rest

/-- Modelled from the spec: `dspy.Evaluate` (§4.3), absent from the source.
For every Example in the subset, invoke the pipeline's `answer`, compare the
predicted label to the expected label with `metric`, accumulate a running
correct-count, and return `correct_count / len(subset)`, defined as 0 when
the subset is empty. -/
def evaluate (pipeline : Example → Option Prediction) (subset : List Example)
    (metric : String → String → Bool) : ℚ :=
  if subset.length = 0 then 0
  else (correctCount pipeline metric subset : ℚ) / subset.length

theorem correctCount_eq_countP (pipeline : Example → Option Prediction)
    (metric : String → String → Bool) (l : List Example) :
    correctCount pipeline metric l = l.countP (scoreOne pipeline metric) := by
  induction l with
  | nil => simp [correctCount]
  | cons e rest ih =>
    rw [correctCount, ih, List.countP_cons]
    by_cases h : scoreOne pipeline metric e <;> simp [h, Nat.add_comm]

theorem correctCount_all_true (pipeline : Example → Option Prediction)
    (metric : String → String → Bool) (l : List Example)
    (h : ∀ e ∈ l, scoreOne pipeline metric e = true) :
    correctCount pipeline metric l = l.length := by
  induction l with
  | nil => rfl
  | cons e rest ih =>
    rw [correctCount, h e (by simp), ih fun x hx => h x (by simp [hx])]
    simp [Nat.add_comm]

theorem correctCount_all_false (pipeline : Example → Option Prediction)
    (metric : String → String → Bool) (l : List Example)
    (h : ∀ e ∈ l, scoreOne pipeline metric e = false) :
    correctCount pipeline metric l = 0 := by
  induction l with
  | nil => rfl
  | cons e rest ih =>
    rw [correctCount, h e (by simp), ih fun x hx => h x (by simp [hx])]
    simp

/-- C1: `evaluate` scores every Example of the subset through the pipeline's
`answer` against the metric and returns the correct-count divided by the
subset size; on a nonempty subset where every prediction matches it returns
1, and where no prediction matches it returns 0. -/
theorem evaluate_ratio_one_zero (pipeline : Example → Option Prediction)
    (subset : List Example) (metric : String → String → Bool)
    (hne : subset ≠ []) :
    evaluate pipeline subset metric
      = (subset.countP (scoreOne pipeline metric) : ℚ) / subset.length ∧
    ((∀ e ∈ subset, scoreOne pipeline metric e = true) →
      evaluate pipeline subset metric = 1) ∧
    ((∀ e ∈ subset, scoreOne pipeline metric e = false) →
      evaluate pipeline subset metric = 0) := by
  have hlen : subset.length ≠ 0 := by
    simpa [List.length_eq_zero] using hne
  have hlenQ : (subset.length : ℚ) ≠ 0 := Nat.cast_ne_zero.mpr hlen
  refine ⟨?_, ?_, ?_⟩
  · rw [evaluate, if_neg hlen, correctCount_eq_countP]
  · intro h
    rw [evaluate, if_neg hlen, correctCount_all_true pipeline metric subset h,
      div_self hlenQ]
  · intro h
    rw [evaluate, if_neg hlen, correctCount_all_false pipeline metric subset h]
    simp

/-- C1 witness: on a concrete two-example subset under an always-correct
pipeline, `evaluate` returns 1 (and equals the countP ratio). -/
theorem evaluate_ratio_one_zero_witness :
    ([Example.mk "r1" "A", Example.mk "r2" "B"] : List Example) ≠ [] ∧
    (∀ e ∈ ([Example.mk "r1" "A", Example.mk "r2" "B"] : List Example),
      scoreOne (fun ex => some ⟨"", ex.answer⟩) answer_exact_match e = true) ∧
    evaluate (fun ex => some ⟨"", ex.answer⟩)
      [Example.mk "r1" "A", Example.mk "r2" "B"] answer_exact_match = 1 :=
  ⟨by decide, by decide,
    (evaluate_ratio_one_zero (fun ex => some ⟨"", ex.answer⟩)
      [Example.mk "r1" "A", Example.mk "r2" "B"] answer_exact_match
      (by decide)).2.1 (by decide)⟩

/-- C5: on the empty subset, `evaluate` returns 0; being a total function it
raises nothing — the division by the subset length is guarded by the
empty-subset branch. -/
theorem evaluate_empty (pipeline : Example → Option Prediction)
    (metric : String → String → Bool) :
    evaluate pipeline [] metric = 0 := by
  rfl

theorem correctCount_append (pipeline : Example → Option Prediction)
    (metric : String → String → Bool) (a b : List Example) :
    correctCount pipeline metric (a ++ b)
      = correctCount pipeline metric a + correctCount pipeline metric b := by
  induction a with
  | nil => simp [correctCount]
  | cons x xs ih => rw [List.cons_append, correctCount, correctCount, ih, Nat.add_assoc]

/-- C6: a single malformed model output (a failed parse, scored through the
Evaluator) inside a subset of size `k > 1` whose other `k-1` examples are all
answered correctly is treated as an incorrect prediction, not a fatal error:
all `k-1` remaining examples still contribute to the correct-count and the
score is exactly `1 - 1/k`, i.e. reduced by at most `1/k` from the
all-correct score. -/
theorem evaluate_single_malformed (pipeline : Example → Option Prediction)
    (metric : String → String → Bool) (xs ys : List Example) (e : Example)
    (hmal : pipeline e = none)
    (hrest : ∀ x ∈ xs ++ ys, scoreOne pipeline metric x = true)
    (hk : 1 < (xs ++ e :: ys).length) :
    evaluate pipeline (xs ++ e :: ys) metric
      = 1 - 1 / ((xs ++ e :: ys).length : ℚ) ∧
    correctCount pipeline metric (xs ++ e :: ys)
      = (xs ++ e :: ys).length - 1 := by
  have hse : scoreOne pipeline metric e = false := by
    simp [scoreOne, hmal]
  have hcc : correctCount pipeline metric (xs ++ e :: ys)
      = xs.length + ys.length := by
    rw [correctCount_append, correctCount, hse,
      correctCount_all_true pipeline metric xs
        (fun x hx => hrest x (by simp [hx])),
      correctCount_all_true pipeline metric ys
        (fun x hx => hrest x (by simp [hx]))]
    simp
  have hlen : (xs ++ e :: ys).length = xs.length + ys.length + 1 := by
    simp [List.length_append]
    omega
  constructor
  · have hlen0 : (xs ++ e :: ys).length ≠ 0 := by omega
    have hlenQ : ((xs ++ e :: ys).length : ℚ) ≠ 0 := Nat.cast_ne_zero.mpr hlen0
    rw [evaluate, if_neg hlen0, hcc, hlen]
    have hQ : ((xs.length + ys.length + 1 : Nat) : ℚ) ≠ 0 := by
      rw [← hlen]
      exact hlenQ
    field_simp
  · rw [hcc, hlen]
    omega

/-- C6 witness: in a concrete 3-example subset where one model output fails
to parse and the other two are correct, the score is exactly `1 - 1/3`. -/
theorem evaluate_single_malformed_witness :
    (fun ex => if ex.riddle == "bad" then none
               else some (Prediction.mk "" ex.answer)) (Example.mk "bad" "C")
      = none ∧
    (∀ x ∈ ([Example.mk "r1" "A"] ++ [Example.mk "r2" "B"] : List Example),
      scoreOne (fun ex => if ex.riddle == "bad" then none
                          else some (Prediction.mk "" ex.answer))
        answer_exact_match x = true) ∧
    1 < ([Example.mk "r1" "A"] ++ Example.mk "bad" "C" :: [Example.mk "r2" "B"]).length ∧
    evaluate (fun ex => if ex.riddle == "bad" then none
                        else some (Prediction.mk "" ex.answer))
        ([Example.mk "r1" "A"] ++ Example.mk "bad" "C" :: [Example.mk "r2" "B"])
        answer_exact_match
      = 1 - 1 / (([Example.mk "r1" "A"] ++ Example.mk "bad" "C" :: [Example.mk "r2" "B"]).length : ℚ) :=
  ⟨by decide, by decide, by decide,
    (evaluate_single_malformed
      (fun ex => if ex.riddle == "bad" then none
                 else some (Prediction.mk "" ex.answer))
      answer_exact_match [Example.mk "r1" "A"] [Example.mk "r2" "B"]
      (Example.mk "bad" "C") (by decide) (by decide) (by decide)).1⟩

/-- A Pipeline Configuration (§3): an instruction string plus the bounded
lists of bootstrapped and labeled demonstration examples selected for the
prompt. -/
structure PipelineConfig where
  instruction : String
  bootstrapped_demos : List Example
  labeled_demos : List Example
deriving DecidableEq, Repr

/-- The demonstration-count limits passed to the optimizer: the notebook uses
`max_bootstrapped_demos=2, max_labeled_demos=2`. -/
structure DemoLimits where
  max_bootstrapped_demos : Nat
  max_labeled_demos : Nat
deriving DecidableEq, Repr

/-- The concrete limits of the notebook's `optm.compile` call. -/
def notebookLimits : DemoLimits := ⟨2, 2⟩

/-- A configuration satisfies the limits when each demonstration list is no
longer than its configured bound. -/
def withinLimits (lim : DemoLimits) (c : PipelineConfig) : Prop :=
  c.bootstrapped_demos.length ≤ lim.max_bootstrapped_demos ∧
  c.labeled_demos.length ≤ lim.max_labeled_demos

/-- Truncate a candidate configuration's demonstration lists to the limits. -/
def clampConfig (lim : DemoLimits) (c : PipelineConfig) : PipelineConfig :=
  { c with
    bootstrapped_demos := c.bootstrapped_demos.take lim.max_bootstrapped_demos,
    labeled_demos := c.labeled_demos.take lim.max_labeled_demos }

/-- Select the best-scoring candidate, keeping the incumbent on ties. -/
def bestBy (score : PipelineConfig → ℚ) : PipelineConfig → List PipelineConfig → PipelineConfig
  | best, [] => best
  | best, c :: cs => bestBy score (if score best < score c then c else best) cs

/-- Modelled from the spec: `dspy.MIPROv2(...).compile` (§4.4), absent from
the source.  The internal search is a black box behind a narrow interface: a
proposer supplies candidate configurations from the training subset, every
candidate (and the baseline) is truncated to the demonstration limits, each
is scored on the validation subset through the Evaluator, and the
best-scoring candidate becomes the new configuration. -/
def optimize (runner : PipelineConfig → Example → Option Prediction)
    (propose : List Example → List PipelineConfig)
    (baseline : PipelineConfig) (trainset valset : List Example)
    (metric : String → String → Bool) (lim : DemoLimits) : PipelineConfig :=
  bestBy (fun c => evaluate (runner c) valset metric)
    (clampConfig lim baseline)
    ((propose trainset).map (clampConfig lim))

theorem clampConfig_withinLimits (lim : DemoLimits) (c : PipelineConfig) :
    withinLimits lim (clampConfig lim c) := by
  constructor <;> simp [clampConfig, List.length_take]

theorem bestBy_mem (score : PipelineConfig → ℚ) (b : PipelineConfig)
    (cs : List PipelineConfig) :
    bestBy score b cs = b ∨ bestBy score b cs ∈ cs := by
  induction cs generalizing b with
  | nil => left; rfl
  | cons c cs ih =>
    rcases ih (if score b < score c then c else b) with h | h
    · rw [bestBy, h]
      by_cases hc : score b < score c
      · right
        simp [hc]
      · left
        simp [hc]
    · right
      rw [bestBy]
      exact List.mem_cons_of_mem _ h

/-- C7: for every runner, candidate proposer, baseline configuration,
training and validation subsets, metric and limits, `optimize` returns a
configuration whose demonstration counts satisfy the limits; in particular
with the notebook's limits the result carries at most 2 bootstrapped and at
most 2 labeled demonstrations. -/
theorem optimize_withinLimits (runner : PipelineConfig → Example → Option Prediction)
    (propose : List Example → List PipelineConfig) (baseline : PipelineConfig)
    (trainset valset : List Example) (metric : String → String → Bool)
    (lim : DemoLimits) :
    withinLimits lim (optimize runner propose baseline trainset valset metric lim) ∧
    (optimize runner propose baseline trainset valset metric
        notebookLimits).bootstrapped_demos.length ≤ 2 ∧
    (optimize runner propose baseline trainset valset metric
        notebookLimits).labeled_demos.length ≤ 2 := by
  have main : ∀ lim' : DemoLimits,
      withinLimits lim' (optimize runner propose baseline trainset valset metric lim') := by
    intro lim'
    unfold optimize
    rcases bestBy_mem (fun c => evaluate (runner c) valset metric)
      (clampConfig lim' baseline) ((propose trainset).map (clampConfig lim')) with h | h
    · rw [h]
      exact clampConfig_withinLimits lim' baseline
    · rcases List.mem_map.mp h with ⟨c, _, hc⟩
      rw [← hc]
      exact clampConfig_withinLimits lim' c
  exact ⟨main lim, (main notebookLimits).1, (main notebookLimits).2⟩

/-- The two states of a Pipeline Configuration (§4.4): baseline before the
optimizer runs, optimized after. -/
inductive ConfigPhase where
  | baseline
  | optimized
deriving DecidableEq, Repr

/-- A pipeline together with the phase of its configuration. -/
structure PipelineState where
  phase : ConfigPhase
  config : PipelineConfig
deriving DecidableEq, Repr

/-- Modelled from the spec: the `optm.compile(...)` invocation (§4.4) — one
optimizer invocation replaces the pipeline's configuration wholesale with the
optimizer's output and moves the phase to `optimized`. -/
def compileStep (optimizer_output : PipelineConfig) (_st : PipelineState) :
    PipelineState :=
  { phase := ConfigPhase.optimized, config := optimizer_output }

/-- The phase transitions of the Pipeline Configuration: the only step is the
one the optimizer invocation performs. -/
inductive PhaseStep : ConfigPhase → ConfigPhase → Prop
  | compile : PhaseStep ConfigPhase.baseline ConfigPhase.optimized

/-- C8: the Pipeline Configuration has exactly two states and one transition:
every step goes from `baseline` to `optimized` (so it occurs exactly once per
optimizer invocation and cannot repeat from `optimized`), there is no step
out of `optimized` (no rollback), and the invocation replaces the
configuration wholesale with the optimizer's output regardless of the prior
configuration. -/
theorem config_state_machine :
    (∀ a b : ConfigPhase, PhaseStep a b ↔ (a = ConfigPhase.baseline ∧ b = ConfigPhase.optimized)) ∧
    (∀ b : ConfigPhase, PhaseStep ConfigPhase.optimized b ↔ False) ∧
    (∀ (out : PipelineConfig) (st : PipelineState),
      (compileStep out st).phase = ConfigPhase.optimized ∧
      (compileStep out st).config = out) := by
  refine ⟨?_, ?_, ?_⟩
  · intro a b
    constructor
    · rintro ⟨⟩
      exact ⟨rfl, rfl⟩
    · rintro ⟨rfl, rfl⟩
      exact PhaseStep.compile
  · intro b
    constructor
    · rintro ⟨⟩
    · rintro ⟨⟩
  · intro out st
    exact ⟨rfl, rfl⟩

/-- The downsample size of `DataFrame.sample(frac=0.1, ...)`: pandas draws
`round(0.1 * n)` rows, with Python's round-half-to-even tie handling. -/
def sampleSize (n : Nat) : Nat :=
  if n % 10 < 5 then n / 10
  else if 5 < n % 10 then n / 10 + 1
  else n / 10 + n / 10 % 2

/-- Modelled from the spec: `dataset.sample(frac=0.1, random_state=SEED)` —
pandas' row sampler, absent from the source.  A deterministic
pseudo-random selection, seeded by `random_state`, of `round(0.1*n)` distinct
rows of the dataset: modelled as the prefix of a seeded permutation. -/
def sampleFrac (random_state : Nat) (l : List α) : List α :=
  (shuffle random_state l).take (sampleSize l.length)

theorem sampleSize_bounds (n : Nat) :
    n / 10 ≤ sampleSize n ∧ sampleSize n ≤ n / 10 + 1 ∧ sampleSize n ≤ n := by
  unfold sampleSize
  split
  · omega
  · split <;> omega

/-- C9: the loaded dataset is deterministically downsampled before any
shuffling or partitioning: same `random_state` and same input rows give the
same selected rows; the selection keeps `round(n/10)` rows of the dataset
(within one row of `⌊n/10⌋`, "roughly one tenth"), every kept row comes from
the dataset, and the partition harness then operates on exactly that
downsampled size. -/
theorem sampleFrac_deterministic_tenth (rs₁ rs₂ : Nat) (l₁ l₂ : List Example)
    (hs : rs₁ = rs₂) (hl : l₁ = l₂) :
    sampleFrac rs₁ l₁ = sampleFrac rs₂ l₂ ∧
    (sampleFrac rs₁ l₁).length = sampleSize l₁.length ∧
    l₁.length / 10 ≤ (sampleFrac rs₁ l₁).length ∧
    (sampleFrac rs₁ l₁).length ≤ l₁.length / 10 + 1 ∧
    (∀ a ∈ sampleFrac rs₁ l₁, a ∈ l₁) ∧
    (partitionDataset SEED (sampleFrac rs₁ l₁)).1.length +
      (partitionDataset SEED (sampleFrac rs₁ l₁)).2.1.length +
      (partitionDataset SEED (sampleFrac rs₁ l₁)).2.2.length
        = sampleSize l₁.length := by
  have hb := sampleSize_bounds l₁.length
  have hlen : (sampleFrac rs₁ l₁).length = sampleSize l₁.length := by
    rw [sampleFrac, List.length_take, shuffle_length]
    omega
  refine ⟨by rw [hs, hl], hlen, ?_, ?_, ?_, ?_⟩
  · omega
  · omega
  · intro a ha
    exact (shuffle_perm rs₁ l₁).subset (List.take_subset _ _ ha)
  · have h := partitionDataset_lengths SEED (sampleFrac rs₁ l₁)
    have hle := train_val_size_le (sampleFrac rs₁ l₁).length
    rw [h.1, h.2.1, h.2.2, hlen] at *
    omega

/-- C9 witness: a concrete 12-row dataset with `random_state = 1208` keeps
`round(1.2) = 1` row, deterministically. -/
theorem sampleFrac_deterministic_tenth_witness :
    SEED = 1208 ∧
    sampleFrac SEED (List.map (fun n => Example.mk (toString n) "A")
        [0, 1, 2, 3, 4, 5, 6, 7, 8, 9, 10, 11])
      = sampleFrac 1208 (List.map (fun n => Example.mk (toString n) "A")
        [0, 1, 2, 3, 4, 5, 6, 7, 8, 9, 10, 11]) ∧
    (sampleFrac SEED (List.map (fun n => Example.mk (toString n) "A")
        [0, 1, 2, 3, 4, 5, 6, 7, 8, 9, 10, 11])).length
      = sampleSize 12 :=
  ⟨rfl,
    (sampleFrac_deterministic_tenth SEED 1208 _ _ rfl rfl).1,
    (sampleFrac_deterministic_tenth SEED 1208 _ _ rfl rfl).2.1⟩
